import Mathlib

/-!
Shallow embedding of the real-time core of the tungpt-back server
(the Socket.IO section of the main server file: presence maps, typing
indicators, and the streaming orchestrator `streamAIResponse` together
with the `stream-message` handler).

JavaScript `Map`s are modelled as insertion-ordered association lists
(`Map.set` replaces in place or appends, `Map.delete` removes the key),
and JavaScript `Set`s as duplicate-free insertion-ordered lists.
Event payloads are modelled as association lists of field values, so that
the presence or absence of a JSON field (e.g. a `seq` field) is decidable.
-/

namespace TunGPT

/-- One level of JSON object nesting suffices for the payloads the server
emits: the nested `message` object of `message-sent` / `ai-stream-complete`. -/
structure MsgObj where
  role : String
  content : String
  timestamp : Nat
  tokens : Option Nat
  userId : Option String
  username : Option String
deriving DecidableEq, Repr

/-- A JSON field value as it appears in an emitted payload. -/
inductive FieldVal where
  | s : String → FieldVal
  | n : Nat → FieldVal
  | b : Bool → FieldVal
  | m : MsgObj → FieldVal
deriving DecidableEq, Repr

/-- An emitted payload: a JSON object, as an ordered field list. -/
abbrev Payload := List (String × FieldVal)

/-- Field lookup in a payload (JS property access: absent field reads as
`undefined`, here `none`). -/
def Payload.get : Payload → String → Option FieldVal
  | [], _ => none
  | e :: rest, k => if e.1 = k then some e.2 else Payload.get rest k

/-- Emission target: `socket.emit` (one socket), `io.to(room)` (every
member of the room), `socket.to(room)` (every member except the sender). -/
inductive Target where
  | toSocket (sid : String)
  | toRoom (room : String)
  | toRoomExcept (room : String) (exceptSid : String)
deriving DecidableEq, Repr

/-- A message record as built by `Conversation.addMessage` (the fields the
streaming core sets: role, content, tokens, model). -/
structure StoredMessage where
  role : String
  content : String
  tokens : Nat
  model : String
deriving DecidableEq, Repr

/-- Observable actions the handlers perform, in program order: event
emissions, persistence writes (successful or throwing), invocation of the
generation provider, and usage-counter updates (successful or throwing). -/
inductive Action where
  | emit (t : Target) (event : String) (payload : Payload)
  | persist (conversationId : String) (msg : StoredMessage)
  | persistFail (conversationId : String)
  | providerInvoke (conversationId : String)
  | usageIncr (userId : String) (messages tokens : Nat)
  | usageFail (userId : String)
deriving DecidableEq, Repr

/-- JS `Map.get`: the value at the (unique) matching key. -/
def mapLookup {α : Type} : List (String × α) → String → Option α
  | [], _ => none
  | e :: rest, k => if e.1 = k then some e.2 else mapLookup rest k

/-- JS `Map.set`: replace in place if the key exists, else append. -/
def mapSet {α : Type} : List (String × α) → String → α → List (String × α)
  | [], k, v => [(k, v)]
  | e :: rest, k, v => if e.1 = k then (k, v) :: rest else e :: mapSet rest k v

/-- JS `Map.delete`: remove the (unique) matching key. -/
def mapDelete {α : Type} : List (String × α) → String → List (String × α)
  | [], _ => []
  | e :: rest, k => if e.1 = k then mapDelete rest k else e :: mapDelete rest k

/-- JS `Set.add`: append if absent. -/
def setAdd (s : List String) (x : String) : List String :=
  if s.contains x then s else s ++ [x]

/-- JS `Set.delete`. -/
def setDelete : List String → String → List String
  | [], _ => []
  | y :: rest, x => if y = x then setDelete rest x else y :: setDelete rest x

/-- The server's shared mutable state: `activeUsers` (userId → socketId),
`userSockets` (socketId → userId), `typingUsers` (conversationId → set of
typing userIds), and Socket.IO room membership (roomId → member socketIds). -/
structure SState where
  activeUsers : List (String × String)
  userSockets : List (String × String)
  typingUsers : List (String × List String)
  rooms : List (String × List String)
deriving DecidableEq, Repr

def initState : SState :=
  { activeUsers := [], userSockets := [], typingUsers := [], rooms := [] }

/-- The room name for a conversation: `conversation:` ++ id. -/
def convRoom (cid : String) : String := "conversation:" ++ cid

def joinRoom (st : SState) (sid room : String) : SState :=
  { st with rooms := mapSet st.rooms room (setAdd ((mapLookup st.rooms room).getD []) sid) }

def leaveRoom (st : SState) (sid room : String) : SState :=
  { st with rooms := mapSet st.rooms room (setDelete ((mapLookup st.rooms room).getD []) sid) }

def memberOf (rooms : List (String × List String)) (room sid : String) : Bool :=
  ((mapLookup rooms room).getD []).contains sid

/-- Payload of `typing-start` / `typing-stopped`. -/
def typingPayload (cid uid uname : String) : Payload :=
  [("conversationId", .s cid), ("userId", .s uid), ("username", .s uname)]

/-- The `connection` handler: record the socket in both presence maps,
emit `connected`, join the user's personal room. -/
def onConnection (st : SState) (uid sid : String) : SState × List Action :=
  let st1 := { st with activeUsers := mapSet st.activeUsers uid sid,
                       userSockets := mapSet st.userSockets sid uid }
  let st2 := joinRoom st1 sid ("user:" ++ uid)
  (st2, [.emit (.toSocket sid) "connected"
          [("userId", .s uid),
           ("message", .s "Successfully connected to chat server")]])

/-- The `join-conversation` handler. -/
def onJoinConversation (st : SState) (sid cid : String) : SState × List Action :=
  (joinRoom st sid (convRoom cid),
   [.emit (.toSocket sid) "joined-conversation"
      [("conversationId", .s cid), ("message", .s "Joined conversation room")]])

/-- The `leave-conversation` handler: leave the room; if the conversation
has a typing entry, remove this user from it (deleting the key when the
set empties) and broadcast `typing-stopped` to the room minus the sender. -/
def onLeaveConversation (st : SState) (uid uname sid cid : String) :
    SState × List Action :=
  let st1 := leaveRoom st sid (convRoom cid)
  match mapLookup st1.typingUsers cid with
  | none => (st1, [])
  | some users =>
      let users2 := setDelete users uid
      let tmap := if users2.isEmpty then mapDelete st1.typingUsers cid
                  else mapSet st1.typingUsers cid users2
      ({ st1 with typingUsers := tmap },
       [.emit (.toRoomExcept (convRoom cid) sid) "typing-stopped"
          (typingPayload cid uid uname)])

/-- The `typing-start` handler: ensure the conversation's typing set exists,
add the user, broadcast `typing-start` to the room minus the sender.
No timer of any kind is scheduled. -/
def onTypingStart (st : SState) (uid uname sid cid : String) :
    SState × List Action :=
  let cur := (mapLookup st.typingUsers cid).getD []
  ({ st with typingUsers := mapSet st.typingUsers cid (setAdd cur uid) },
   [.emit (.toRoomExcept (convRoom cid) sid) "typing-start"
      (typingPayload cid uid uname)])

/-- The `typing-stop` handler: if the conversation has a typing entry,
delete this user from it (whether or not the user was in it), delete the
key when the set empties, and broadcast `typing-stopped`; if the
conversation has no typing entry at all, do nothing. -/
def onTypingStop (st : SState) (uid uname sid cid : String) :
    SState × List Action :=
  match mapLookup st.typingUsers cid with
  | none => (st, [])
  | some users =>
      let users2 := setDelete users uid
      let tmap := if users2.isEmpty then mapDelete st.typingUsers cid
                  else mapSet st.typingUsers cid users2
      ({ st with typingUsers := tmap },
       [.emit (.toRoomExcept (convRoom cid) sid) "typing-stopped"
          (typingPayload cid uid uname)])

/-- The `typingUsers.forEach` loop of the `disconnect` handler: remove the
user from every conversation's typing set, deleting keys that empty, and
collect the affected conversation ids in iteration order. -/
def evictFromTyping (uid : String) :
    List (String × List String) → List (String × List String) × List String
  | [] => ([], [])
  | (c, users) :: rest =>
      let r := evictFromTyping uid rest
      if users.contains uid then
        let users2 := setDelete users uid
        (if users2.isEmpty then r.1 else (c, users2) :: r.1, c :: r.2)
      else ((c, users) :: r.1, r.2)

/-- Remove a socket from every room (Socket.IO does this on disconnect). -/
def leaveAllRooms (rooms : List (String × List String)) (sid : String) :
    List (String × List String) :=
  rooms.map (fun e => (e.1, setDelete e.2 sid))

/-- The `disconnect` handler: unconditionally delete the user from
`activeUsers` and the socket from `userSockets`, then evict the user from
every typing set, broadcasting `typing-stopped` (via `io.to`, the whole
room) for each affected conversation. -/
def onDisconnect (st : SState) (uid uname sid : String) : SState × List Action :=
  let st1 := { st with activeUsers := mapDelete st.activeUsers uid,
                       userSockets := mapDelete st.userSockets sid,
                       rooms := leaveAllRooms st.rooms sid }
  let r := evictFromTyping uid st1.typingUsers
  ({ st1 with typingUsers := r.1 },
   r.2.map (fun c => .emit (.toRoom (convRoom c)) "typing-stopped"
                       (typingPayload c uid uname)))

/-- Presence query used by the HTTP routes: `activeUsers.has(userId)`. -/
def isOnline (st : SState) (uid : String) : Bool :=
  (mapLookup st.activeUsers uid).isSome

/-! ## Streaming orchestrator

`stream-message` / `streamAIResponse` are sequential programs whose
external effects (awaited bridge calls and emissions) we record as an
`Action` trace in program order.  The outcomes of the awaited external
calls are inputs, collected in `StreamEnv`.  A single `now` timestamp is
threaded for the completion payloads: the two `new Date()` calls sit in
consecutive statements with no suspension point between them, so under the
event-loop model they read the same clock value. -/

/-- Outcome of the provider stream: the chunk list as received (a `none`
entry is a chunk whose `choices[0]?.delta?.content` was absent, which the
loop skips), either running to end-of-stream or throwing after a prefix. -/
inductive ProviderOutcome where
  | ok (chunks : List (Option String))
  | err (pre : List (Option String))
deriving DecidableEq, Repr

/-- Outcomes of the awaited external calls made by one submission. -/
structure StreamEnv where
  convFound : Bool
  persistUserOk : Bool
  provider : ProviderOutcome
  persistAssistantOk : Bool
  usageUserFound : Bool
  usageSaveOk : Bool
  convModel : String
  now : Nat
deriving DecidableEq, Repr

/-- The contents the chunk loop actually processes (`if (content)`). -/
def contentsOf (chunks : List (Option String)) : List String :=
  chunks.filterMap id

/-- Payload of one `ai-stream-chunk` emission.  Note the fields: there is
no sequence-number field. -/
def chunkPayload (cid content : String) : Payload :=
  [("conversationId", .s cid), ("chunk", .s content), ("isComplete", .b false)]

/-- Per received content: one emission to the submitting socket and one to
the conversation room excluding the submitter, identical payloads. -/
def chunkEmits (sid cid : String) : List String → List Action
  | [] => []
  | c :: cs =>
      .emit (.toSocket sid) "ai-stream-chunk" (chunkPayload cid c) ::
      .emit (.toRoomExcept (convRoom cid) sid) "ai-stream-chunk" (chunkPayload cid c) ::
      chunkEmits sid cid cs

def completeMsgObj (full : String) (tok nowTs : Nat) : MsgObj :=
  { role := "assistant", content := full, timestamp := nowTs,
    tokens := some tok, userId := none, username := none }

def completePayload (cid full : String) (tok nowTs : Nat) : Payload :=
  [("conversationId", .s cid), ("message", .m (completeMsgObj full tok nowTs))]

def aiTypingStartPayload (cid : String) : Payload :=
  [("conversationId", .s cid), ("message", .s "AI is thinking...")]

def aiTypingStopPayload (cid : String) : Payload :=
  [("conversationId", .s cid)]

def streamErrorPayload (cid : String) : Payload :=
  [("conversationId", .s cid), ("error", .s "Failed to generate AI response")]

/-- The catch block of `streamAIResponse`: `ai-stream-error` to the
submitting socket only, then `ai-typing-stop` to the room minus the
submitter. -/
def catchActions (sid cid : String) : List Action :=
  [.emit (.toSocket sid) "ai-stream-error" (streamErrorPayload cid),
   .emit (.toRoomExcept (convRoom cid) sid) "ai-typing-stop" (aiTypingStopPayload cid)]

/-- The body of `streamAIResponse(socket, conversation, model)`: emit the
AI typing indicator (room minus submitter), invoke the provider, fan out
each chunk, then persist the assistant message, emit the two completion
copies and `ai-typing-stop`, and update usage.  Any throw — provider error,
assistant-message persistence failure, or usage-save failure — lands in the
single catch block after the actions already performed. -/
def streamAIResponse (uid sid cid : String) (env : StreamEnv) : List Action :=
  let typingStart :=
    Action.emit (.toRoomExcept (convRoom cid) sid) "ai-typing-start"
      (aiTypingStartPayload cid)
  match env.provider with
  | .err pre =>
      typingStart :: .providerInvoke cid ::
        (chunkEmits sid cid (contentsOf pre) ++ catchActions sid cid)
  | .ok chunks =>
      let contents := contentsOf chunks
      let full := String.join contents
      let tok := contents.length
      let base := typingStart :: .providerInvoke cid :: chunkEmits sid cid contents
      if env.persistAssistantOk then
        let afterPersist := base ++
          [.persist cid { role := "assistant", content := full, tokens := tok,
                          model := env.convModel },
           .emit (.toSocket sid) "ai-stream-complete" (completePayload cid full tok env.now),
           .emit (.toRoomExcept (convRoom cid) sid) "ai-stream-complete"
             (completePayload cid full tok env.now),
           .emit (.toRoomExcept (convRoom cid) sid) "ai-typing-stop"
             (aiTypingStopPayload cid)]
        if env.usageUserFound then
          if env.usageSaveOk then afterPersist ++ [.usageIncr uid 1 tok]
          else afterPersist ++ (.usageFail uid :: catchActions sid cid)
        else afterPersist
      else base ++ (.persistFail cid :: catchActions sid cid)

def userMsgObj (uid uname msgText : String) (nowTs : Nat) : MsgObj :=
  { role := "user", content := msgText, timestamp := nowTs,
    tokens := none, userId := some uid, username := some uname }

def messageSentPayload (cid uid uname msgText : String) (nowTs : Nat) : Payload :=
  [("conversationId", .s cid), ("message", .m (userMsgObj uid uname msgText nowTs))]

/-- The stored user message (`addMessage` defaults `tokens` to 0). -/
def userStoredMessage (msgText mdl : String) : StoredMessage :=
  { role := "user", content := msgText, tokens := 0, model := mdl }

/-- The `stream-message` handler: verify conversation access, persist the
user message (a throw is caught: a generic error goes to the submitting
socket and nothing further runs), broadcast `message-sent` to the whole
room, then run `streamAIResponse`.  There is no check of any kind against
an already-running generation for the conversation: the handler's
behaviour is a function of the submission's own environment only. -/
def onStreamMessage (uid uname sid cid msgText : String) (env : StreamEnv) :
    List Action :=
  if env.convFound then
    if env.persistUserOk then
      .persist cid (userStoredMessage msgText env.convModel) ::
      .emit (.toRoom (convRoom cid)) "message-sent"
        (messageSentPayload cid uid uname msgText env.now) ::
      streamAIResponse uid sid cid env
    else
      [.persistFail cid,
       .emit (.toSocket sid) "error" [("message", .s "Failed to process message")]]
  else
    [.emit (.toSocket sid) "error"
       [("message", .s "Conversation not found or access denied")]]

/-! ## Delivery semantics

What a given socket receives from a trace of emissions, relative to a room
membership snapshot. -/

/-- Whether one action delivers an event to socket `m`. -/
def deliversTo (rooms : List (String × List String)) (m : String) :
    Action → Option (String × Payload)
  | .emit (.toSocket s) ev p => if m = s then some (ev, p) else none
  | .emit (.toRoom r) ev p => if memberOf rooms r m = true then some (ev, p) else none
  | .emit (.toRoomExcept r ex) ev p =>
      if memberOf rooms r m = true ∧ m ≠ ex then some (ev, p) else none
  | _ => none

/-- The ordered list of events socket `m` receives from a trace. -/
def deliveredTo (rooms : List (String × List String)) (acts : List Action)
    (m : String) : List (String × Payload) :=
  acts.filterMap (deliversTo rooms m)

/-- The stream events (chunks and completion) among a received list. -/
def streamEventsOf (evs : List (String × Payload)) : List (String × Payload) :=
  evs.filter (fun e => e.1 == "ai-stream-chunk" || e.1 == "ai-stream-complete")

def streamEventsTo (rooms : List (String × List String)) (acts : List Action)
    (m : String) : List (String × Payload) :=
  streamEventsOf (deliveredTo rooms acts m)

/-- The chunk texts among a received list. -/
def chunkTextsOf (evs : List (String × Payload)) : List String :=
  evs.filterMap (fun e =>
    if e.1 = "ai-stream-chunk" then
      match e.2.get "chunk" with
      | some (.s t) => some t
      | _ => none
    else none)

/-- The completion texts among a received list. -/
def completeTextsOf (evs : List (String × Payload)) : List String :=
  evs.filterMap (fun e =>
    if e.1 = "ai-stream-complete" then
      match e.2.get "message" with
      | some (.m mo) => some mo.content
      | _ => none
    else none)

/-! ## Event-level dispatch

The inbound client events handled by the connection block, for reasoning
about reachable states and whole traces.  (The `stream-message` handler
does not touch `SState`, so it is not needed for state-invariant traces.) -/

inductive Event where
  | connect (uid sid : String)
  | joinConv (sid cid : String)
  | leaveConv (uid uname sid cid : String)
  | typingStart (uid uname sid cid : String)
  | typingStop (uid uname sid cid : String)
  | disconnect (uid uname sid : String)
deriving DecidableEq, Repr

def stepEvent (st : SState) : Event → SState × List Action
  | .connect uid sid => onConnection st uid sid
  | .joinConv sid cid => onJoinConversation st sid cid
  | .leaveConv uid uname sid cid => onLeaveConversation st uid uname sid cid
  | .typingStart uid uname sid cid => onTypingStart st uid uname sid cid
  | .typingStop uid uname sid cid => onTypingStop st uid uname sid cid
  | .disconnect uid uname sid => onDisconnect st uid uname sid

/-- Run a list of inbound events, collecting the emitted actions. -/
def runEvents (st : SState) : List Event → SState × List Action
  | [] => (st, [])
  | e :: es =>
      ((runEvents (stepEvent st e).1 es).1,
       (stepEvent st e).2 ++ (runEvents (stepEvent st e).1 es).2)

/-! ## Derived predicates used in the statements -/

/-- An emission that ends a streaming session (completion or error). -/
def isTerminalEmit : Action → Bool
  | .emit _ ev _ => ev == "ai-stream-complete" || ev == "ai-stream-error"
  | _ => false

/-- An emission of any error event (`error` or `ai-stream-error`). -/
def isErrorEmit : Action → Bool
  | .emit _ ev _ => ev == "error" || ev == "ai-stream-error"
  | _ => false

/-- A persistence write of an assistant message. -/
def isAssistantPersist : Action → Bool
  | .persist _ msg => msg.role == "assistant"
  | _ => false

/-- A `typing-stopped` emission whose payload names user `u`. -/
def isTypingStoppedFor (u : String) : Action → Bool
  | .emit _ ev p => ev == "typing-stopped" && (p.get "userId" == some (FieldVal.s u))
  | _ => false

/-- An inbound event through which user `u` explicitly ends typing:
a `typing-stop`, `leave-conversation` or `disconnect` issued by `u`. -/
def isStopperBy (u : String) : Event → Bool
  | .typingStop uid _ _ _ => uid == u
  | .leaveConv uid _ _ _ => uid == u
  | .disconnect uid _ _ => uid == u
  | _ => false

/-- Invariant: no conversation key of the typing map is bound to an empty
set. -/
def TypingNonempty (st : SState) : Prop :=
  ∀ p ∈ st.typingUsers, p.2 ≠ []

/-- The stream events (chunks, then the completion when the success path
persists) that one submission produces, as a function of the environment
only — in particular not of which room member observes them. -/
def streamCanonical (cid : String) (env : StreamEnv) : List (String × Payload) :=
  match env.provider with
  | .err pre =>
      (contentsOf pre).map (fun c => ("ai-stream-chunk", chunkPayload cid c))
  | .ok chunks =>
      ((contentsOf chunks).map (fun c => ("ai-stream-chunk", chunkPayload cid c))) ++
      (if env.persistAssistantOk then
        [("ai-stream-complete",
          completePayload cid (String.join (contentsOf chunks))
            (contentsOf chunks).length env.now)]
       else [])

/-! ## Concrete fixtures for the counterexamples and witnesses -/

/-- A room with two member sockets, `s1` (the submitter) and `s2`. -/
def roomsCex : List (String × List String) := [("conversation:c1", ["s1", "s2"])]

/-- All external calls succeed; the provider yields two content chunks and
one contentless chunk. -/
def envOk : StreamEnv :=
  { convFound := true, persistUserOk := true,
    provider := .ok [some "He", none, some "llo"],
    persistAssistantOk := true, usageUserFound := true, usageSaveOk := true,
    convModel := "gpt-4o-mini", now := 100 }

/-- A second accepted submission on the same conversation. -/
def envOk2 : StreamEnv :=
  { envOk with provider := .ok [some "x"], now := 101 }

/-- The provider throws after two content chunks. -/
def envErr2 : StreamEnv :=
  { envOk with provider := .err [some "a", some "b"] }

/-- Everything succeeds except the post-completion usage save. -/
def envUsageFail : StreamEnv :=
  { envOk with provider := .ok [some "Hi"], usageSaveOk := false }

/-- The user-message write fails. -/
def envPersistFail : StreamEnv :=
  { envOk with persistUserOk := false }

def actsOk : List Action := onStreamMessage "u1" "alice" "s1" "c1" "hi" envOk

def actsOk2 : List Action := onStreamMessage "u2" "bob" "s2" "c1" "yo" envOk2

def actsErr : List Action := onStreamMessage "u1" "alice" "s1" "c1" "hi" envErr2

def actsUsageFail : List Action :=
  onStreamMessage "u1" "alice" "s1" "c1" "hi" envUsageFail

/-- A state in which user `uB` is typing in conversation `c1` and user
`uA` is not. -/
def stTypingB : SState :=
  { activeUsers := [("uA", "sA"), ("uB", "sB")],
    userSockets := [("sA", "uA"), ("sB", "uB")],
    typingUsers := [("c1", ["uB"])],
    rooms := [("conversation:c1", ["sA", "sB"])] }

/-- Two users join conversation `c1`; `u1` signals typing and then nothing
further happens. -/
def typingTraceCex : List Event :=
  [.connect "u1" "s1", .connect "u2" "s2",
   .joinConv "s1" "c1", .joinConv "s2" "c1",
   .typingStart "u1" "alice" "s1" "c1"]

/-! ## Association-list map lemmas -/

lemma mapLookup_mapSet_self {α : Type} (m : List (String × α)) (k : String) (v : α) :
    mapLookup (mapSet m k v) k = some v := by
  induction m with
  | nil => simp [mapSet, mapLookup]
  | cons e rest ih =>
      by_cases h : e.1 = k
      · simp [mapSet, mapLookup, h]
      · simp [mapSet, mapLookup, h, ih]

lemma mapLookup_mapSet_ne {α : Type} (m : List (String × α)) {k k' : String} (v : α)
    (h : k' ≠ k) :
    mapLookup (mapSet m k v) k' = mapLookup m k' := by
  induction m with
  | nil => simp [mapSet, mapLookup, Ne.symm h]
  | cons e rest ih =>
      by_cases he : e.1 = k
      · simp [mapSet, mapLookup, he, Ne.symm h]
      · by_cases he' : e.1 = k'
        · simp [mapSet, mapLookup, he, he', h]
        · simp [mapSet, mapLookup, he, he', ih]

lemma mapLookup_mapDelete_self {α : Type} (m : List (String × α)) (k : String) :
    mapLookup (mapDelete m k) k = none := by
  induction m with
  | nil => simp [mapDelete, mapLookup]
  | cons e rest ih =>
      by_cases h : e.1 = k
      · simp [mapDelete, h, ih]
      · simp [mapDelete, mapLookup, h, ih]

lemma mapLookup_mapDelete_ne {α : Type} (m : List (String × α)) {k k' : String}
    (h : k' ≠ k) :
    mapLookup (mapDelete m k) k' = mapLookup m k' := by
  induction m with
  | nil => simp [mapDelete]
  | cons e rest ih =>
      by_cases he : e.1 = k
      · have : e.1 ≠ k' := by rw [he]; exact Ne.symm h
        simp [mapDelete, mapLookup, he, this, ih, Ne.symm h]
      · by_cases he' : e.1 = k'
        · simp [mapDelete, mapLookup, he, he', h]
        · simp [mapDelete, mapLookup, he, he', ih]

lemma mem_mapSet {α : Type} {m : List (String × α)} {k : String} {v : α} {p : String × α}
    (hp : p ∈ mapSet m k v) : p ∈ m ∨ p = (k, v) := by
  induction m with
  | nil => simp [mapSet] at hp; exact Or.inr hp
  | cons e rest ih =>
      by_cases he : e.1 = k
      · simp only [mapSet, he, if_true] at hp
        rcases List.mem_cons.mp hp with h1 | h1
        · exact Or.inr h1
        · exact Or.inl (List.mem_cons_of_mem _ h1)
      · simp only [mapSet, he, if_false] at hp
        rcases List.mem_cons.mp hp with h1 | h1
        · exact Or.inl (h1 ▸ List.mem_cons_self _ _)
        · rcases ih h1 with h2 | h2
          · exact Or.inl (List.mem_cons_of_mem _ h2)
          · exact Or.inr h2

lemma mem_mapDelete {α : Type} {m : List (String × α)} {k : String} {p : String × α}
    (hp : p ∈ mapDelete m k) : p ∈ m := by
  induction m with
  | nil => simp [mapDelete] at hp
  | cons e rest ih =>
      by_cases he : e.1 = k
      · simp only [mapDelete, he, if_true] at hp
        exact List.mem_cons_of_mem _ (ih hp)
      · simp only [mapDelete, he, if_false] at hp
        rcases List.mem_cons.mp hp with h1 | h1
        · exact h1 ▸ List.mem_cons_self _ _
        · exact List.mem_cons_of_mem _ (ih h1)

lemma setAdd_ne_nil (s : List String) (x : String) : setAdd s x ≠ [] := by
  unfold setAdd
  split
  · rename_i h
    intro hnil
    rw [hnil] at h
    simp at h
  · simp

/-! ## Typing-map invariant machinery -/

lemma setDelete_ne_nil_of_not_isEmpty {s : List String} {x : String}
    (h : (setDelete s x).isEmpty = false) : setDelete s x ≠ [] := by
  intro hnil
  rw [hnil] at h
  simp at h

lemma evictFromTyping_nonempty {u : String} {m : List (String × List String)}
    (h : ∀ p ∈ m, p.2 ≠ []) : ∀ p ∈ (evictFromTyping u m).1, p.2 ≠ [] := by
  induction m with
  | nil => intro p hp; simp [evictFromTyping] at hp
  | cons a as ih =>
      intro p hp
      have has : ∀ q ∈ as, q.2 ≠ [] := fun q hq => h q (List.mem_cons_of_mem _ hq)
      obtain ⟨c, users⟩ := a
      simp only [evictFromTyping] at hp
      by_cases hc : users.contains u
      · simp only [hc, if_true] at hp
        by_cases hE : (setDelete users u).isEmpty
        · simp only [hE, if_true] at hp
          exact ih has p hp
        · simp only [hE, if_false] at hp
          rcases List.mem_cons.mp hp with h1 | h1
          · rw [h1]
            exact setDelete_ne_nil_of_not_isEmpty (by simpa using hE)
          · exact ih has p h1
      · simp only [hc, if_false] at hp
        rcases List.mem_cons.mp hp with h1 | h1
        · rw [h1]; exact h (c, users) (List.mem_cons_self _ _)
        · exact ih has p h1

lemma typingNonempty_stepEvent {st : SState} (h : TypingNonempty st) (e : Event) :
    TypingNonempty (stepEvent st e).1 := by
  cases e with
  | connect uid sid =>
      simpa [stepEvent, onConnection, joinRoom, TypingNonempty] using h
  | joinConv sid cid =>
      simpa [stepEvent, onJoinConversation, joinRoom, TypingNonempty] using h
  | leaveConv uid uname sid cid =>
      simp only [stepEvent, onLeaveConversation, leaveRoom]
      cases hm : mapLookup st.typingUsers cid with
      | none => simpa [TypingNonempty] using h
      | some users =>
          intro p hp
          simp only at hp
          by_cases hE : (setDelete users uid).isEmpty
          · simp only [hE, if_true] at hp
            exact h p (mem_mapDelete hp)
          · simp only [hE, if_false] at hp
            rcases mem_mapSet hp with h1 | h1
            · exact h p h1
            · rw [h1]
              exact setDelete_ne_nil_of_not_isEmpty (by simpa using hE)
  | typingStart uid uname sid cid =>
      intro p hp
      simp only [stepEvent, onTypingStart] at hp
      rcases mem_mapSet hp with h1 | h1
      · exact h p h1
      · rw [h1]; exact setAdd_ne_nil _ _
  | typingStop uid uname sid cid =>
      simp only [stepEvent, onTypingStop]
      cases hm : mapLookup st.typingUsers cid with
      | none => exact h
      | some users =>
          intro p hp
          simp only at hp
          by_cases hE : (setDelete users uid).isEmpty
          · simp only [hE, if_true] at hp
            exact h p (mem_mapDelete hp)
          · simp only [hE, if_false] at hp
            rcases mem_mapSet hp with h1 | h1
            · exact h p h1
            · rw [h1]
              exact setDelete_ne_nil_of_not_isEmpty (by simpa using hE)
  | disconnect uid uname sid =>
      intro p hp
      simp only [stepEvent, onDisconnect] at hp
      exact evictFromTyping_nonempty h p hp

lemma typingNonempty_runEvents {st : SState} (h : TypingNonempty st)
    (tr : List Event) : TypingNonempty (runEvents st tr).1 := by
  induction tr generalizing st with
  | nil => simpa [runEvents] using h
  | cons e es ih =>
      simp only [runEvents]
      exact ih (typingNonempty_stepEvent h e)

/-! ## Typing-stopped provenance machinery -/

lemma typingPayload_get_userId (cid uid uname : String) :
    (typingPayload cid uid uname).get "userId" = some (FieldVal.s uid) := by
  simp [typingPayload, Payload.get]

lemma isTypingStoppedFor_typingPayload {u uid : String} (hne : uid ≠ u)
    (tgt : Target) (ev cid uname : String) :
    isTypingStoppedFor u (.emit tgt ev (typingPayload cid uid uname)) = false := by
  simp [isTypingStoppedFor, typingPayload_get_userId, hne]

lemma stepEvent_no_typingStopped {u : String} {st : SState} {e : Event}
    (he : isStopperBy u e = false) :
    ∀ a ∈ (stepEvent st e).2, isTypingStoppedFor u a = false := by
  cases e with
  | connect uid sid =>
      intro a ha
      simp only [stepEvent, onConnection, List.mem_singleton] at ha
      rw [ha]; rfl
  | joinConv sid cid =>
      intro a ha
      simp only [stepEvent, onJoinConversation, List.mem_singleton] at ha
      rw [ha]; rfl
  | leaveConv uid uname sid cid =>
      have hne : uid ≠ u := by simpa [isStopperBy] using he
      intro a ha
      simp only [stepEvent, onLeaveConversation, leaveRoom] at ha
      cases hm : mapLookup st.typingUsers cid with
      | none => rw [hm] at ha; simp at ha
      | some users =>
          rw [hm] at ha
          simp only [List.mem_singleton] at ha
          rw [ha]
          exact isTypingStoppedFor_typingPayload hne _ _ _ _
  | typingStart uid uname sid cid =>
      intro a ha
      simp only [stepEvent, onTypingStart, List.mem_singleton] at ha
      rw [ha]
      simp [isTypingStoppedFor]
  | typingStop uid uname sid cid =>
      have hne : uid ≠ u := by simpa [isStopperBy] using he
      intro a ha
      simp only [stepEvent, onTypingStop] at ha
      cases hm : mapLookup st.typingUsers cid with
      | none => rw [hm] at ha; simp at ha
      | some users =>
          rw [hm] at ha
          simp only [List.mem_singleton] at ha
          rw [ha]
          exact isTypingStoppedFor_typingPayload hne _ _ _ _
  | disconnect uid uname sid =>
      have hne : uid ≠ u := by simpa [isStopperBy] using he
      intro a ha
      simp only [stepEvent, onDisconnect] at ha
      obtain ⟨c, _, hc⟩ := List.mem_map.mp ha
      rw [← hc]
      exact isTypingStoppedFor_typingPayload hne _ _ _ _

/-! ## Delivery machinery for the streaming fan-out -/

lemma deliveredTo_cons (rooms : List (String × List String)) (a : Action)
    (acts : List Action) (m : String) :
    deliveredTo rooms (a :: acts) m
      = ((deliversTo rooms m a).toList) ++ deliveredTo rooms acts m := by
  simp [deliveredTo, List.filterMap_cons]
  cases deliversTo rooms m a <;> simp

lemma deliveredTo_append (rooms : List (String × List String)) (xs ys : List Action)
    (m : String) :
    deliveredTo rooms (xs ++ ys) m = deliveredTo rooms xs m ++ deliveredTo rooms ys m := by
  simp [deliveredTo, List.filterMap_append]

lemma streamEventsOf_append (xs ys : List (String × Payload)) :
    streamEventsOf (xs ++ ys) = streamEventsOf xs ++ streamEventsOf ys := by
  simp [streamEventsOf, List.filter_append]

lemma deliveredTo_chunkEmits (rooms : List (String × List String))
    (sid cid m : String) (contents : List String)
    (hmem : memberOf rooms (convRoom cid) m = true) :
    deliveredTo rooms (chunkEmits sid cid contents) m
      = contents.map (fun c => ("ai-stream-chunk", chunkPayload cid c)) := by
  induction contents with
  | nil => rfl
  | cons c cs ih =>
      by_cases hm : m = sid
      · subst hm
        simp [chunkEmits, deliveredTo_cons, deliversTo, hmem, ih]
      · simp [chunkEmits, deliveredTo_cons, deliversTo, hm, hmem, ih]

lemma streamEventsOf_chunkMap (cid : String) (contents : List String) :
    streamEventsOf (contents.map (fun c => ("ai-stream-chunk", chunkPayload cid c)))
      = contents.map (fun c => ("ai-stream-chunk", chunkPayload cid c)) := by
  induction contents with
  | nil => rfl
  | cons c cs ih =>
      simp only [List.map_cons, streamEventsOf, List.filter_cons]
      simp [streamEventsOf] at ih
      simp [ih]


lemma streamEventsTo_catch (rooms : List (String × List String)) (sid cid m : String) :
    streamEventsOf (deliveredTo rooms (catchActions sid cid) m) = [] := by
  by_cases hm : m = sid <;>
    by_cases hmem : memberOf rooms (convRoom cid) m = true <;>
      simp [catchActions, deliveredTo_cons, deliveredTo, deliversTo, hm, hmem, streamEventsOf]


lemma deliveredTo_nil (rooms : List (String × List String)) (m : String) :
    deliveredTo rooms [] m = [] := rfl

lemma filter_stream_chunkMap (cid : String) (contents : List String) :
    List.filter (fun e => e.1 == "ai-stream-chunk" || e.1 == "ai-stream-complete")
      (contents.map (fun c => ("ai-stream-chunk", chunkPayload cid c)))
    = contents.map (fun c => ("ai-stream-chunk", chunkPayload cid c)) := by
  induction contents with
  | nil => rfl
  | cons c cs ih => simp only [List.map_cons, List.filter_cons]; simp [ih]

lemma filter_stream_catch (rooms : List (String × List String)) (sid cid m : String) :
    List.filter (fun e => e.1 == "ai-stream-chunk" || e.1 == "ai-stream-complete")
      (deliveredTo rooms (catchActions sid cid) m) = [] := by
  by_cases hm : m = sid <;>
    by_cases hmem : memberOf rooms (convRoom cid) m = true <;>
      simp [catchActions, deliveredTo_cons, deliveredTo, deliversTo, hm, hmem]

lemma streamEventsTo_streamAI (rooms : List (String × List String))
    (uid sid cid m : String) (env : StreamEnv)
    (hmem : memberOf rooms (convRoom cid) m = true) :
    streamEventsOf (deliveredTo rooms (streamAIResponse uid sid cid env) m)
      = streamCanonical cid env := by
  have hchunks := deliveredTo_chunkEmits rooms sid cid m
  cases hp : env.provider with
  | err pre =>
      by_cases hm : m = sid
      · subst hm
        simp [streamAIResponse, hp, deliveredTo_cons, deliveredTo_append, deliversTo,
              hmem, streamEventsOf_append, filter_stream_catch, deliveredTo_nil,
              hchunks _ hmem, filter_stream_chunkMap, streamCanonical, streamEventsOf]
      · simp [streamAIResponse, hp, deliveredTo_cons, deliveredTo_append, deliversTo,
              hm, hmem, streamEventsOf_append, filter_stream_catch, deliveredTo_nil,
              hchunks _ hmem, filter_stream_chunkMap, streamCanonical, streamEventsOf]
  | ok chunks =>
      by_cases hpa : env.persistAssistantOk <;>
        by_cases huf : env.usageUserFound <;>
          by_cases hus : env.usageSaveOk <;>
            by_cases hm : m = sid
      all_goals
        first
        | (subst hm
           simp [streamAIResponse, hp, hpa, huf, hus, deliveredTo_cons,
                 deliveredTo_append, deliversTo, hmem, streamEventsOf_append,
                 filter_stream_catch, deliveredTo_nil, hchunks _ hmem,
                 filter_stream_chunkMap, streamCanonical, streamEventsOf])
        | simp [streamAIResponse, hp, hpa, huf, hus, deliveredTo_cons,
                deliveredTo_append, deliversTo, hm, hmem, streamEventsOf_append,
                filter_stream_catch, deliveredTo_nil, hchunks _ hmem,
                filter_stream_chunkMap, streamCanonical, streamEventsOf]

/-! ## Round-trip support lemmas -/

lemma streamEventsOf_cons_skip {e : String × Payload} (evs : List (String × Payload))
    (h : (e.1 == "ai-stream-chunk" || e.1 == "ai-stream-complete") = false) :
    streamEventsOf (e :: evs) = streamEventsOf evs := by
  simp [streamEventsOf, List.filter_cons, h]

lemma streamEventsTo_onStreamMessage (rooms : List (String × List String))
    (uid uname sid cid msgText m : String) (env : StreamEnv)
    (hconv : env.convFound = true) (hpu : env.persistUserOk = true)
    (hmem : memberOf rooms (convRoom cid) m = true) :
    streamEventsTo rooms (onStreamMessage uid uname sid cid msgText env) m
      = streamCanonical cid env := by
  have h1 : onStreamMessage uid uname sid cid msgText env
      = .persist cid (userStoredMessage msgText env.convModel)
        :: .emit (.toRoom (convRoom cid)) "message-sent"
             (messageSentPayload cid uid uname msgText env.now)
        :: streamAIResponse uid sid cid env := by
    simp [onStreamMessage, hconv, hpu]
  rw [streamEventsTo, h1, deliveredTo_cons, deliveredTo_cons]
  simp only [deliversTo, hmem, if_true, Option.toList_some, Option.toList_none,
             List.nil_append, List.singleton_append]
  rw [streamEventsOf_cons_skip _ (by rfl)]
  exact streamEventsTo_streamAI rooms uid sid cid m env hmem

lemma chunkPayload_get_chunk (cid c : String) :
    (chunkPayload cid c).get "chunk" = some (FieldVal.s c) := rfl

lemma chunkPayload_get_seq (cid c : String) :
    (chunkPayload cid c).get "seq" = none := rfl

lemma chunkTextsOf_chunkMap (cid : String) (contents : List String) :
    chunkTextsOf (contents.map (fun c => ("ai-stream-chunk", chunkPayload cid c)))
      = contents := by
  induction contents with
  | nil => rfl
  | cons c cs ih =>
      simp only [List.map_cons, chunkTextsOf, List.filterMap_cons] at ih ⊢
      simp only [chunkPayload_get_chunk]
      simp [ih]

lemma chunkTextsOf_append (xs ys : List (String × Payload)) :
    chunkTextsOf (xs ++ ys) = chunkTextsOf xs ++ chunkTextsOf ys := by
  simp [chunkTextsOf, List.filterMap_append]

lemma completeTextsOf_append (xs ys : List (String × Payload)) :
    completeTextsOf (xs ++ ys) = completeTextsOf xs ++ completeTextsOf ys := by
  simp [completeTextsOf, List.filterMap_append]

lemma completeTextsOf_chunkMap (cid : String) (contents : List String) :
    completeTextsOf (contents.map (fun c => ("ai-stream-chunk", chunkPayload cid c)))
      = [] := by
  induction contents with
  | nil => rfl
  | cons c cs ih =>
      simp only [List.map_cons, completeTextsOf, List.filterMap_cons] at ih ⊢
      simp [ih]

lemma chunkTextsOf_canonical (cid : String) (env : StreamEnv)
    (chunks : List (Option String)) (hok : env.provider = .ok chunks)
    (hpa : env.persistAssistantOk = true) :
    chunkTextsOf (streamCanonical cid env) = contentsOf chunks := by
  simp only [streamCanonical, hok, hpa, if_true]
  rw [chunkTextsOf_append, chunkTextsOf_chunkMap]
  simp [chunkTextsOf]

lemma completeTextsOf_canonical (cid : String) (env : StreamEnv)
    (chunks : List (Option String)) (hok : env.provider = .ok chunks)
    (hpa : env.persistAssistantOk = true) :
    completeTextsOf (streamCanonical cid env)
      = [String.join (contentsOf chunks)] := by
  simp only [streamCanonical, hok, hpa, if_true]
  rw [completeTextsOf_append, completeTextsOf_chunkMap]
  rfl

lemma canonical_chunks_no_seq (cid : String) (env : StreamEnv) :
    ∀ ep ∈ streamCanonical cid env, ep.1 = "ai-stream-chunk" →
      ep.2.get "seq" = none := by
  intro ep hep _
  cases hp : env.provider with
  | err pre =>
      rw [streamCanonical, hp] at hep
      obtain ⟨c, _, hc⟩ := List.mem_map.mp hep
      rw [← hc]
      exact chunkPayload_get_seq cid c
  | ok chunks =>
      rw [streamCanonical, hp] at hep
      rcases List.mem_append.mp hep with h1 | h1
      · obtain ⟨c, _, hc⟩ := List.mem_map.mp h1
        rw [← hc]
        exact chunkPayload_get_seq cid c
      · by_cases hpa : env.persistAssistantOk
        · simp only [hpa, if_true, List.mem_singleton] at h1
          rw [h1]
          rfl
        · simp [hpa] at h1

/-! ## Claims on presence and typing state -/

/-- Claim C10 (confirmed): the typing-state map never contains a room key
bound to an empty user set — in every state reachable from the initial
state by inbound events, every entry of `typingUsers` has a nonempty set,
because every removal path deletes the room key when the set empties and
`typing-start` only creates an entry together with an insertion. -/
theorem typing_map_no_empty_entries (tr : List Event) (c : String)
    (users : List String)
    (h : (c, users) ∈ (runEvents initState tr).1.typingUsers) : users ≠ [] := by
  have h0 : TypingNonempty initState := by
    intro p hp
    simp [initState] at hp
  exact typingNonempty_runEvents h0 tr (c, users) h

/-- Witness for C10: a concrete trace reaching a state with a typing entry,
to which the invariant applies. -/
theorem typing_map_no_empty_entries_witness :
    ("c1", ["u1"]) ∈ (runEvents initState typingTraceCex).1.typingUsers
    ∧ (["u1"] : List String) ≠ [] :=
  ⟨by decide, typing_map_no_empty_entries typingTraceCex "c1" ["u1"] (by decide)⟩

/-- Claim C3 (counterexample): the code schedules no eviction timer at all.
In a run where `u1` signals `typing-start` and never sends an explicit
stop, the emitted action trace contains zero `typing-stopped` events for
`u1` — not exactly one as the claim demands.  (The second submission of a
timer is not representable because the handler produces no timer action:
`onTypingStart` emits only the `typing-start` broadcast.) -/
theorem typing_no_timeout_cex :
    Event.typingStart "u1" "alice" "s1" "c1" ∈ typingTraceCex
    ∧ (∀ e ∈ typingTraceCex, isStopperBy "u1" e = false)
    ∧ ((runEvents initState typingTraceCex).2.filter
        (fun a => isTypingStoppedFor "u1" a)).length = 0
    ∧ (onTypingStart stTypingB "uA" "A" "sA" "c1").2
        = [.emit (.toRoomExcept "conversation:c1" "sA") "typing-start"
             (typingPayload "c1" "uA" "A")] := by
  refine ⟨by decide, by decide, by rfl, by rfl⟩

/-- Claim C3 (amended): typing entries never expire on their own.  If no
event of a trace is an explicit `typing-stop`, `leave-conversation` or
`disconnect` issued by user `u`, then no `typing-stopped` event for `u` is
ever emitted, from any starting state. -/
theorem typing_stopped_requires_explicit_stop (u : String) (st : SState)
    (tr : List Event) (h : ∀ e ∈ tr, isStopperBy u e = false) :
    ∀ a ∈ (runEvents st tr).2, isTypingStoppedFor u a = false := by
  induction tr generalizing st with
  | nil => intro a ha; simp [runEvents] at ha
  | cons e es ih =>
      intro a ha
      simp only [runEvents] at ha
      rcases List.mem_append.mp ha with h1 | h2
      · exact stepEvent_no_typingStopped (h e (List.mem_cons_self _ _)) a h1
      · exact ih _ (fun e' he' => h e' (List.mem_cons_of_mem _ he')) a h2

/-- Witness for the amended C3, applied to the concrete stop-free trace
and its `typing-start` broadcast action. -/
theorem typing_stopped_requires_explicit_stop_witness :
    isTypingStoppedFor "u1"
      (Action.emit (.toRoomExcept "conversation:c1" "s1") "typing-start"
        (typingPayload "c1" "u1" "alice")) = false :=
  typing_stopped_requires_explicit_stop "u1" initState typingTraceCex
    (by decide) _ (by decide)

/-- Claim C4 (counterexample): `typing-stop` is not a no-op when the caller
has no typing entry.  In a state where only `uB` is typing in `c1`, a
`typing-stop` from `uA` — who is absent from the set — still broadcasts
`typing-stopped` naming `uA`, because the handler only checks that the
room key exists, not that the caller is in the set. -/
theorem typing_stop_broadcast_without_entry_cex :
    "uA" ∉ (mapLookup stTypingB.typingUsers "c1").getD []
    ∧ (onTypingStop stTypingB "uA" "A" "sA" "c1").2
        = [.emit (.toRoomExcept "conversation:c1" "sA") "typing-stopped"
             (typingPayload "c1" "uA" "A")] :=
  ⟨by decide, by rfl⟩

/-- Claim C4 (amended): `typing-stop` is a no-op (no broadcast, no state
change) exactly when the room has no typing entry at all; whenever the
room key is present, exactly one `typing-stopped{userId}` is broadcast —
even if this user was not in the set — the user is removed from the set,
and the key is deleted when the set empties. -/
theorem typing_stop_behavior (st : SState) (uid uname sid cid : String) :
    (mapLookup st.typingUsers cid = none →
       onTypingStop st uid uname sid cid = (st, []))
    ∧ ∀ users, mapLookup st.typingUsers cid = some users →
        (onTypingStop st uid uname sid cid).2
          = [.emit (.toRoomExcept (convRoom cid) sid) "typing-stopped"
               (typingPayload cid uid uname)]
        ∧ mapLookup (onTypingStop st uid uname sid cid).1.typingUsers cid
          = (if (setDelete users uid).isEmpty then none
             else some (setDelete users uid)) := by
  constructor
  · intro h
    simp [onTypingStop, h]
  · intro users h
    refine ⟨by simp [onTypingStop, h], ?_⟩
    simp only [onTypingStop, h]
    by_cases hE : (setDelete users uid).isEmpty
    · simp [hE, mapLookup_mapDelete_self]
    · simp [hE, mapLookup_mapSet_self]

/-- Witness for the amended C4: the entry-present case at a concrete state,
where `uB` stops typing and the emptied key is deleted. -/
theorem typing_stop_behavior_witness :
    (onTypingStop stTypingB "uB" "B" "sB" "c1").2
      = [.emit (.toRoomExcept (convRoom "c1") "sB") "typing-stopped"
           (typingPayload "c1" "uB" "B")]
    ∧ mapLookup (onTypingStop stTypingB "uB" "B" "sB" "c1").1.typingUsers "c1"
      = (if (setDelete ["uB"] "uB").isEmpty then none
         else some (setDelete ["uB"] "uB")) :=
  (typing_stop_behavior stTypingB "uB" "B" "sB" "c1").2 ["uB"] rfl

/-- Claim C8 (counterexample): with two live sockets `s1`, `s2` for user
`u1`, disconnecting `s1` (not the last handle) still marks `u1` offline:
`activeUsers` holds a single socket per user and `disconnect` deletes the
user's entry unconditionally, while `s2` is still registered in
`userSockets`. -/
theorem second_handle_disconnect_marks_offline_cex :
    isOnline ((onDisconnect ((onConnection ((onConnection initState
        "u1" "s1").1) "u1" "s2").1) "u1" "alice" "s1").1) "u1" = false
    ∧ mapLookup ((onDisconnect ((onConnection ((onConnection initState
        "u1" "s1").1) "u1" "s2").1) "u1" "alice" "s1").1).userSockets "s2"
      = some "u1" :=
  ⟨by rfl, by rfl⟩

/-- Claim C8 (amended): the registry tracks at most one handle per user —
a second connection overwrites the stored socket id, and a disconnect of
any of the user's sockets deletes the user's presence entry, so
`isOnline` becomes false even though the other socket remains registered
in the socket-to-user map.  This holds from any starting state. -/
theorem single_handle_registry (st : SState) (u uname s1 s2 : String)
    (h : s1 ≠ s2) :
    isOnline ((onDisconnect ((onConnection ((onConnection st u s1).1)
        u s2).1) u uname s1).1) u = false
    ∧ mapLookup ((onDisconnect ((onConnection ((onConnection st u s1).1)
        u s2).1) u uname s1).1).userSockets s2 = some u := by
  constructor
  · simp [onConnection, onDisconnect, joinRoom, isOnline, mapLookup_mapDelete_self]
  · simp only [onConnection, onDisconnect, joinRoom]
    rw [mapLookup_mapDelete_ne _ (Ne.symm h), mapLookup_mapSet_self]

/-- Witness for the amended C8 at concrete sockets. -/
theorem single_handle_registry_witness :
    isOnline ((onDisconnect ((onConnection ((onConnection initState
        "u2" "sA").1) "u2" "sB").1) "u2" "bob" "sA").1) "u2" = false
    ∧ mapLookup ((onDisconnect ((onConnection ((onConnection initState
        "u2" "sA").1) "u2" "sB").1) "u2" "bob" "sA").1).userSockets "sB"
      = some "u2" :=
  single_handle_registry initState "u2" "bob" "sA" "sB" (by decide)

/-! ## Claims on the streaming orchestrator -/

lemma chunkEmits_no_persist (sid cid : String) (l : List String) :
    ∀ a ∈ chunkEmits sid cid l, isAssistantPersist a = false := by
  induction l with
  | nil => intro a ha; simp [chunkEmits] at ha
  | cons c cs ih =>
      intro a ha
      simp only [chunkEmits, List.mem_cons] at ha
      rcases ha with h | h | h
      · rw [h]; rfl
      · rw [h]; rfl
      · exact ih a h

/-- Claim C1 (counterexample): the `stream-message` handler keeps no
per-conversation guard.  Submission 1 on conversation `c1` is suspended
awaiting its next provider chunk after its sixth action — the provider has
been invoked and no terminal event emitted, so a generation is in flight.
Submission 2 on the same conversation, dispatched at that suspension
point, is accepted: it persists a new user message and emits chunks, and
its trace contains no error or rejection emission of any kind — not the
`Busy` failure the claim requires. -/
theorem concurrent_submit_accepted_cex :
    Action.providerInvoke "c1" ∈ actsOk.take 6
    ∧ (actsOk.take 6).all (fun a => !(isTerminalEmit a)) = true
    ∧ Action.persist "c1" (userStoredMessage "yo" "gpt-4o-mini") ∈ actsOk2
    ∧ Action.emit (.toSocket "s2") "ai-stream-chunk" (chunkPayload "c1" "x") ∈ actsOk2
    ∧ actsOk2.all (fun a => !(isErrorEmit a)) = true :=
  ⟨by decide, by rfl, by decide, by decide, by rfl⟩

/-- Claim C1 (amended): there is no streaming guard.  Whenever the
conversation exists and the user-message write succeeds, the handler
accepts the submission — persisting the message, broadcasting it and
starting a generation — regardless of any generation already in flight:
its behaviour is a function of the submission's own environment only, and
no `Busy` branch exists. -/
theorem submit_accept_independent_of_inflight (uid uname sid cid msgText : String)
    (env : StreamEnv) (hconv : env.convFound = true)
    (hpu : env.persistUserOk = true) :
    onStreamMessage uid uname sid cid msgText env
      = .persist cid (userStoredMessage msgText env.convModel)
        :: .emit (.toRoom (convRoom cid)) "message-sent"
             (messageSentPayload cid uid uname msgText env.now)
        :: streamAIResponse uid sid cid env := by
  simp [onStreamMessage, hconv, hpu]

/-- Witness for the amended C1 at the second submission's environment. -/
theorem submit_accept_independent_of_inflight_witness :
    onStreamMessage "u2" "bob" "s2" "c1" "yo" envOk2
      = .persist "c1" (userStoredMessage "yo" "gpt-4o-mini")
        :: .emit (.toRoom (convRoom "c1")) "message-sent"
             (messageSentPayload "c1" "u2" "bob" "yo" 101)
        :: streamAIResponse "u2" "s2" "c1" envOk2 :=
  submit_accept_independent_of_inflight "u2" "bob" "s2" "c1" "yo" envOk2 rfl rfl

/-- Claim C2 (counterexample): delivered `ai-stream-chunk` payloads carry
no `seq` field at all — the payload is
`{conversationId, chunk, isComplete}` — so the claimed strictly increasing
gap-free `seq` fields do not exist on any delivered chunk.  Shown for a
concrete completed session observed by room member `s2`. -/
theorem chunk_payload_has_no_seq_cex :
    ("ai-stream-chunk", chunkPayload "c1" "He") ∈ deliveredTo roomsCex actsOk "s2"
    ∧ (chunkPayload "c1" "He").get "seq" = none
    ∧ (deliveredTo roomsCex actsOk "s2").all
        (fun e => e.1 != "ai-stream-chunk" || (e.2.get "seq").isNone) = true :=
  ⟨by decide, by rfl, by rfl⟩

/-- Claim C2 (amended): for every completed session and every room member,
the chunk texts delivered to that member are exactly the provider's
contents in order — so their concatenation equals the `ai-stream-complete`
message text exactly, and the delivered chunk sequence is gap-free in
provider order — but chunk payloads carry no `seq` field. -/
theorem stream_roundtrip_concat (rooms : List (String × List String))
    (uid uname sid cid msgText m : String) (env : StreamEnv)
    (chunks : List (Option String))
    (hconv : env.convFound = true) (hpu : env.persistUserOk = true)
    (hok : env.provider = .ok chunks) (hpa : env.persistAssistantOk = true)
    (hmem : memberOf rooms (convRoom cid) m = true) :
    chunkTextsOf (streamEventsTo rooms
        (onStreamMessage uid uname sid cid msgText env) m) = contentsOf chunks
    ∧ completeTextsOf (streamEventsTo rooms
        (onStreamMessage uid uname sid cid msgText env) m)
      = [String.join (contentsOf chunks)]
    ∧ ∀ ep ∈ streamEventsTo rooms
        (onStreamMessage uid uname sid cid msgText env) m,
        ep.1 = "ai-stream-chunk" → ep.2.get "seq" = none := by
  rw [streamEventsTo_onStreamMessage rooms uid uname sid cid msgText m env
        hconv hpu hmem]
  exact ⟨chunkTextsOf_canonical cid env chunks hok hpa,
         completeTextsOf_canonical cid env chunks hok hpa,
         canonical_chunks_no_seq cid env⟩

/-- Witness for the amended C2 at a concrete session and member. -/
theorem stream_roundtrip_concat_witness :
    chunkTextsOf (streamEventsTo roomsCex
        (onStreamMessage "u1" "alice" "s1" "c1" "hi" envOk) "s2")
      = contentsOf [some "He", none, some "llo"]
    ∧ completeTextsOf (streamEventsTo roomsCex
        (onStreamMessage "u1" "alice" "s1" "c1" "hi" envOk) "s2")
      = [String.join (contentsOf [some "He", none, some "llo"])] :=
  ⟨(stream_roundtrip_concat roomsCex "u1" "alice" "s1" "c1" "hi" "s2" envOk
      [some "He", none, some "llo"] rfl rfl rfl rfl rfl).1,
   (stream_roundtrip_concat roomsCex "u1" "alice" "s1" "c1" "hi" "s2" envOk
      [some "He", none, some "llo"] rfl rfl rfl rfl rfl).2.1⟩

/-- Claim C5 (confirmed): the user-message write strictly precedes the
provider invocation — wherever `providerInvoke` appears in the handler's
trace, the successful `persist` of the user message appears at an earlier
index — and if the write fails the handler stops with an error emission to
the submitting socket and never reaches the provider. -/
theorem persist_user_before_generation (uid uname sid cid msgText : String)
    (env : StreamEnv) :
    (env.convFound = true → env.persistUserOk = false →
      onStreamMessage uid uname sid cid msgText env
        = [.persistFail cid,
           .emit (.toSocket sid) "error"
             [("message", .s "Failed to process message")]])
    ∧ ∀ n, (onStreamMessage uid uname sid cid msgText env).get? n
          = some (.providerInvoke cid) →
        ∃ k, k < n ∧ (onStreamMessage uid uname sid cid msgText env).get? k
          = some (.persist cid (userStoredMessage msgText env.convModel)) := by
  constructor
  · intro h1 h2
    simp [onStreamMessage, h1, h2]
  · intro n hn
    by_cases hconv : env.convFound
    · by_cases hpu : env.persistUserOk
      · refine ⟨0, ?_, by simp [onStreamMessage, hconv, hpu]⟩
        rcases Nat.eq_zero_or_pos n with h0 | h0
        · exfalso
          subst h0
          rw [show (onStreamMessage uid uname sid cid msgText env).get? 0
              = some (.persist cid (userStoredMessage msgText env.convModel)) from by
                simp [onStreamMessage, hconv, hpu]] at hn
          simp at hn
        · exact h0
      · exfalso
        have hmem := List.get?_mem hn
        simp [onStreamMessage, hconv, hpu] at hmem
    · exfalso
      have hmem := List.get?_mem hn
      simp [onStreamMessage, hconv] at hmem

/-- Witness for C5: in the concrete accepted run the provider invocation
sits at index 3 and the user-message persist at an earlier index. -/
theorem persist_user_before_generation_witness :
    ∃ k, k < 3 ∧ (onStreamMessage "u1" "alice" "s1" "c1" "hi" envOk).get? k
        = some (.persist "c1" (userStoredMessage "hi" "gpt-4o-mini")) :=
  (persist_user_before_generation "u1" "alice" "s1" "c1" "hi" envOk).2 3 rfl

/-- Claim C6 (counterexample): a failed usage increment after a completed
stream is not merely logged — it falls into the handler's catch block,
which emits `ai-stream-error` to the submitting client.  In the concrete
run, the assistant message is persisted and the completion delivered, and
then an `ai-stream-error` is surfaced. -/
theorem usage_failure_emits_stream_error_cex :
    Action.emit (.toSocket "s1") "ai-stream-error" (streamErrorPayload "c1")
      ∈ actsUsageFail
    ∧ actsUsageFail.get? 7
      = some (.emit (.toSocket "s1") "ai-stream-complete"
          (completePayload "c1" "Hi" 1 100))
    ∧ Action.persist "c1"
        { role := "assistant", content := "Hi", tokens := 1,
          model := "gpt-4o-mini" } ∈ actsUsageFail :=
  ⟨by decide, by rfl, by decide⟩

/-- Claim C6 (amended): when the post-completion usage save fails, the
handler's catch emits `ai-stream-error` to the submitting socket and a
second `ai-typing-stop` to the room; the already-performed delivery — the
persisted assistant message, both completion emissions and the first
typing-stop — stands unchanged before it (no rollback). -/
theorem usage_failure_caught_no_rollback (uid sid cid : String)
    (env : StreamEnv) (chunks : List (Option String))
    (hok : env.provider = .ok chunks) (hpa : env.persistAssistantOk = true)
    (huf : env.usageUserFound = true) (hus : env.usageSaveOk = false) :
    streamAIResponse uid sid cid env
      = (Action.emit (.toRoomExcept (convRoom cid) sid) "ai-typing-start"
           (aiTypingStartPayload cid)
          :: Action.providerInvoke cid :: chunkEmits sid cid (contentsOf chunks))
        ++ [.persist cid { role := "assistant",
                           content := String.join (contentsOf chunks),
                           tokens := (contentsOf chunks).length,
                           model := env.convModel },
            .emit (.toSocket sid) "ai-stream-complete"
              (completePayload cid (String.join (contentsOf chunks))
                (contentsOf chunks).length env.now),
            .emit (.toRoomExcept (convRoom cid) sid) "ai-stream-complete"
              (completePayload cid (String.join (contentsOf chunks))
                (contentsOf chunks).length env.now),
            .emit (.toRoomExcept (convRoom cid) sid) "ai-typing-stop"
              (aiTypingStopPayload cid)]
        ++ (.usageFail uid :: catchActions sid cid) := by
  simp [streamAIResponse, hok, hpa, huf, hus]

/-- Witness for the amended C6 at the concrete failing-usage environment. -/
theorem usage_failure_caught_no_rollback_witness :
    streamAIResponse "u1" "s1" "c1" envUsageFail
      = (Action.emit (.toRoomExcept (convRoom "c1") "s1") "ai-typing-start"
           (aiTypingStartPayload "c1")
          :: Action.providerInvoke "c1"
          :: chunkEmits "s1" "c1" (contentsOf [some "Hi"]))
        ++ [.persist "c1" { role := "assistant",
                            content := String.join (contentsOf [some "Hi"]),
                            tokens := (contentsOf [some "Hi"]).length,
                            model := "gpt-4o-mini" },
            .emit (.toSocket "s1") "ai-stream-complete"
              (completePayload "c1" (String.join (contentsOf [some "Hi"]))
                (contentsOf [some "Hi"]).length 100),
            .emit (.toRoomExcept (convRoom "c1") "s1") "ai-stream-complete"
              (completePayload "c1" (String.join (contentsOf [some "Hi"]))
                (contentsOf [some "Hi"]).length 100),
            .emit (.toRoomExcept (convRoom "c1") "s1") "ai-typing-stop"
              (aiTypingStopPayload "c1")]
        ++ (.usageFail "u1" :: catchActions "s1" "c1") :=
  usage_failure_caught_no_rollback "u1" "s1" "c1" envUsageFail [some "Hi"]
    rfl rfl rfl rfl

/-- Claim C7 (counterexample): when the provider errors after two chunks,
the room member `s2` receives the chunks but no stream-error event — the
`ai-stream-error` goes only to the submitting socket — and no
failure-marked assistant message (no assistant persist at all) is written. -/
theorem provider_error_room_gets_no_error_cex :
    (deliveredTo roomsCex actsErr "s2").all
        (fun e => e.1 != "ai-stream-error") = true
    ∧ actsErr.all (fun a => !(isAssistantPersist a)) = true
    ∧ ("ai-stream-chunk", chunkPayload "c1" "a") ∈ deliveredTo roomsCex actsErr "s2"
    ∧ Action.emit (.toSocket "s1") "ai-stream-error" (streamErrorPayload "c1")
      ∈ actsErr :=
  ⟨by rfl, by rfl, by decide, by decide⟩

/-- Claim C7 (amended): on provider error the websocket path emits
`ai-stream-error` to the submitting socket only, followed by
`ai-typing-stop` to the room excluding the submitter; it persists no
assistant message (failure-marked or otherwise) and makes no retry; and
since no guard exists, a subsequent accepted submission on the same
conversation proceeds immediately. -/
theorem provider_error_behavior (uid uname sid cid msgText : String)
    (env env2 : StreamEnv) (pre : List (Option String))
    (herr : env.provider = .err pre) :
    streamAIResponse uid sid cid env
      = Action.emit (.toRoomExcept (convRoom cid) sid) "ai-typing-start"
          (aiTypingStartPayload cid)
        :: Action.providerInvoke cid
        :: (chunkEmits sid cid (contentsOf pre)
            ++ [.emit (.toSocket sid) "ai-stream-error" (streamErrorPayload cid),
                .emit (.toRoomExcept (convRoom cid) sid) "ai-typing-stop"
                  (aiTypingStopPayload cid)])
    ∧ (∀ a ∈ streamAIResponse uid sid cid env, isAssistantPersist a = false)
    ∧ (env2.convFound = true → env2.persistUserOk = true →
        (onStreamMessage uid uname sid cid msgText env2).get? 0
          = some (.persist cid (userStoredMessage msgText env2.convModel))) := by
  have hstruct : streamAIResponse uid sid cid env
      = Action.emit (.toRoomExcept (convRoom cid) sid) "ai-typing-start"
          (aiTypingStartPayload cid)
        :: Action.providerInvoke cid
        :: (chunkEmits sid cid (contentsOf pre)
            ++ [.emit (.toSocket sid) "ai-stream-error" (streamErrorPayload cid),
                .emit (.toRoomExcept (convRoom cid) sid) "ai-typing-stop"
                  (aiTypingStopPayload cid)]) := by
    simp [streamAIResponse, herr, catchActions]
  refine ⟨hstruct, ?_, ?_⟩
  · intro a ha
    rw [hstruct] at ha
    simp only [List.mem_cons, List.mem_append, List.mem_singleton] at ha
    rcases ha with h | h | h | h | h
    · rw [h]; rfl
    · rw [h]; rfl
    · exact chunkEmits_no_persist sid cid _ a h
    · rw [h]; rfl
    · rcases h with h | h
      · rw [h]; rfl
      · simp at h
  · intro h1 h2
    simp [onStreamMessage, h1, h2]

/-- Witness for the amended C7: provider erroring after two chunks, and
the acceptance of the next submission. -/
theorem provider_error_behavior_witness :
    streamAIResponse "u1" "s1" "c1" envErr2
      = Action.emit (.toRoomExcept (convRoom "c1") "s1") "ai-typing-start"
          (aiTypingStartPayload "c1")
        :: Action.providerInvoke "c1"
        :: (chunkEmits "s1" "c1" (contentsOf [some "a", some "b"])
            ++ [.emit (.toSocket "s1") "ai-stream-error" (streamErrorPayload "c1"),
                .emit (.toRoomExcept (convRoom "c1") "s1") "ai-typing-stop"
                  (aiTypingStopPayload "c1")])
    ∧ (onStreamMessage "u1" "alice" "s1" "c1" "hi" envOk).get? 0
      = some (.persist "c1" (userStoredMessage "hi" "gpt-4o-mini")) :=
  ⟨(provider_error_behavior "u1" "alice" "s1" "c1" "hi" envErr2 envOk
      [some "a", some "b"] rfl).1,
   (provider_error_behavior "u1" "alice" "s1" "c1" "hi" envErr2 envOk
      [some "a", some "b"] rfl).2.2 rfl rfl⟩

/-- Claim C9 (confirmed): every room member — the submitter included —
receives the same ordered stream events with identical payloads: each
member's received chunk/completion sequence equals the canonical list
`streamCanonical`, which does not depend on the member. -/
theorem stream_fanout_uniform (rooms : List (String × List String))
    (uid uname sid cid msgText m1 m2 : String) (env : StreamEnv)
    (hconv : env.convFound = true) (hpu : env.persistUserOk = true)
    (h1 : memberOf rooms (convRoom cid) m1 = true)
    (h2 : memberOf rooms (convRoom cid) m2 = true) :
    streamEventsTo rooms (onStreamMessage uid uname sid cid msgText env) m1
      = streamCanonical cid env
    ∧ streamEventsTo rooms (onStreamMessage uid uname sid cid msgText env) m2
      = streamCanonical cid env
    ∧ streamEventsTo rooms (onStreamMessage uid uname sid cid msgText env) m1
      = streamEventsTo rooms (onStreamMessage uid uname sid cid msgText env) m2 := by
  have e1 := streamEventsTo_onStreamMessage rooms uid uname sid cid msgText m1 env
    hconv hpu h1
  have e2 := streamEventsTo_onStreamMessage rooms uid uname sid cid msgText m2 env
    hconv hpu h2
  exact ⟨e1, e2, e1.trans e2.symm⟩

/-- Witness for C9: the submitter `s1` and the other member `s2` of the
concrete room receive identical stream events. -/
theorem stream_fanout_uniform_witness :
    streamEventsTo roomsCex (onStreamMessage "u1" "alice" "s1" "c1" "hi" envOk) "s1"
      = streamCanonical "c1" envOk
    ∧ streamEventsTo roomsCex (onStreamMessage "u1" "alice" "s1" "c1" "hi" envOk) "s2"
      = streamCanonical "c1" envOk
    ∧ streamEventsTo roomsCex (onStreamMessage "u1" "alice" "s1" "c1" "hi" envOk) "s1"
      = streamEventsTo roomsCex (onStreamMessage "u1" "alice" "s1" "c1" "hi" envOk) "s2" :=
  stream_fanout_uniform roomsCex "u1" "alice" "s1" "c1" "hi" "s1" "s2" envOk
    rfl rfl rfl rfl

end TunGPT
